import Mathlib

/-!
Shallow embedding of the technical-analysis core of the `marktec` repository
(`src/technical_analysis.py`): extremum scanning, support/resistance levels,
Fibonacci retracement, Elliott-wave swing points, ABC patterns, buy/sell
signal detection, and the chart-composer error handling.

Prices are modelled as rationals, timestamps as naturals (the series invariant
is that timestamps are strictly increasing, hence injective in position).
-/

namespace Marktec

/-- One row of the input OHLCV series (`date, open, high, low, close, volume`). -/
structure PricePoint where
  date : Nat
  opn : ℚ
  high : ℚ
  low : ℚ
  close : ℚ
  volume : ℚ
deriving DecidableEq, Repr, Inhabited

/-- `df['low'][i]` — positional access to the `low` column. -/
def lowAt (df : List PricePoint) (i : Nat) : ℚ := (df.getD i default).low

/-- `df['high'][i]` — positional access to the `high` column. -/
def highAt (df : List PricePoint) (i : Nat) : ℚ := (df.getD i default).high

/-- `df['close'].iloc[i]` — positional access to the `close` column. -/
def closeAt (df : List PricePoint) (i : Nat) : ℚ := (df.getD i default).close

/-- `df['date'][i]` — positional access to the `date` column. -/
def dateAt (df : List PricePoint) (i : Nat) : Nat := (df.getD i default).date

/-- The window condition of the extremum scanner for local minima on `low`:
`all(df['low'][i] <= df['low'][i-j] for j in range(1, window+1))` and the
symmetric forward check. -/
def isLocalMin (df : List PricePoint) (w i : Nat) : Bool :=
  ((List.range' 1 w).all fun j => decide (lowAt df i ≤ lowAt df (i - j))) &&
  ((List.range' 1 w).all fun j => decide (lowAt df i ≤ lowAt df (i + j)))

/-- The window condition of the extremum scanner for local maxima on `high`:
`all(df['high'][i] >= df['high'][i-j] for j in range(1, window+1))` and the
symmetric forward check. -/
def isLocalMax (df : List PricePoint) (w i : Nat) : Bool :=
  ((List.range' 1 w).all fun j => decide (highAt df (i - j) ≤ highAt df i)) &&
  ((List.range' 1 w).all fun j => decide (highAt df (i + j) ≤ highAt df i))

/-- The index range scanned by every extremum loop:
`range(window, len(df) - window)` (empty when `len(df) ≤ 2*window`). -/
def scanIdx (df : List PricePoint) (w : Nat) : List Nat :=
  List.range' w (df.length - w - w)

/-- Indices classified as supports (local minima on `low`) by
`calculate_support_resistance`. -/
def supportIdx (df : List PricePoint) (w : Nat) : List Nat :=
  (scanIdx df w).filter (isLocalMin df w)

/-- Indices classified as resistances (local maxima on `high`) by
`calculate_support_resistance`. -/
def resistanceIdx (df : List PricePoint) (w : Nat) : List Nat :=
  (scanIdx df w).filter (isLocalMax df w)

/-- `calculate_support_resistance(df, window)` (source default `window=10`):
the list of `(date, low)` support pairs and `(date, high)` resistance pairs,
each in ascending index order. -/
def calculate_support_resistance (df : List PricePoint) (window : Nat) :
    List (Nat × ℚ) × List (Nat × ℚ) :=
  ((supportIdx df window).map fun i => (dateAt df i, lowAt df i),
   (resistanceIdx df window).map fun i => (dateAt df i, highAt df i))

/-- `df['low'].min()` over a non-empty series (`0` is a junk value for the
empty series, which the caller guards). -/
def minLow : List PricePoint → ℚ
  | [] => 0
  | p :: ps => ps.foldl (fun m q => min m q.low) p.low

/-- `df['high'].max()` over a non-empty series. -/
def maxHigh : List PricePoint → ℚ
  | [] => 0
  | p :: ps => ps.foldl (fun m q => max m q.high) p.high

/-- `calculate_fibonacci_retracement(df)`: the 7 fixed ratio/price pairs, in
the insertion order of the source dict.  On an empty series the column min/max
has no value; the source's `except` handler returns the empty dict, modelled
here by the empty list. -/
def calculate_fibonacci_retracement (df : List PricePoint) : List (ℚ × ℚ) :=
  match df with
  | [] => []
  | _ :: _ =>
    let highest := maxHigh df
    let lowest := minLow df
    let diff := highest - lowest
    [((0 : ℚ), highest),
     ((0.236 : ℚ), highest - 0.236 * diff),
     ((0.382 : ℚ), highest - 0.382 * diff),
     ((0.5 : ℚ), highest - 0.5 * diff),
     ((0.618 : ℚ), highest - 0.618 * diff),
     ((0.786 : ℚ), highest - 0.786 * diff),
     ((1 : ℚ), lowest)]

/-- Tag of a swing point: sourced from the `low` column (`min`) or from the
`high` column (`max`). -/
inductive ExtKind where
  | min
  | max
deriving DecidableEq, Repr

/-- The swing-point entries contributed by one scanned index: the
local-minimum check (on `low`) runs first, then the local-maximum check
(on `high`), so an index qualifying as both contributes its `min` entry
immediately before its `max` entry. -/
def extremaEntries (df : List PricePoint) (i : Nat) : List (Nat × ℚ × ExtKind) :=
  (if isLocalMin df 5 i then [(dateAt df i, lowAt df i, ExtKind.min)] else []) ++
  (if isLocalMax df 5 i then [(dateAt df i, highAt df i, ExtKind.max)] else [])

/-- The merged swing-point sequence built identically by
`identify_elliot_waves` and `identify_abc_patterns` (window 5). -/
def extremaOf (df : List PricePoint) : List (Nat × ℚ × ExtKind) :=
  (scanIdx df 5).flatMap (extremaEntries df)

/-- `identify_elliot_waves(df)`: the parallel `waves`/`wave_types` lists. -/
def identify_elliot_waves (df : List PricePoint) :
    List (Nat × ℚ) × List ExtKind :=
  ((extremaOf df).map fun e => (e.1, e.2.1), (extremaOf df).map fun e => e.2.2)

/-- `identify_abc_patterns(df)`: every window of 3 consecutive entries of the
merged swing-point sequence whose kinds are `(max, min, max)`, emitted as the
triple of `(date, price)` pairs. -/
def identify_abc_patterns (df : List PricePoint) : List (List (Nat × ℚ)) :=
  let ext := extremaOf df
  (List.range (ext.length - 2)).filterMap fun i =>
    match ext[i]?, ext[i + 1]?, ext[i + 2]? with
    | some (d1, p1, ExtKind.max), some (d2, p2, ExtKind.min),
      some (d3, p3, ExtKind.max) =>
        some [(d1, p1), (d2, p2), (d3, p3)]
    | _, _, _ => none

/-- The inner level loop of `detect_signal_points`: scan the level list in
order, stop (`break`) at the first level whose price is crossed from strictly
below to at-or-above. -/
def crossesAny (prev curr : ℚ) : List (Nat × ℚ) → Bool
  | [] => false
  | l :: rest =>
    if prev < l.2 ∧ l.2 ≤ curr then true else crossesAny prev curr rest

/-- `detect_signal_points(df, supports, resistances)`: the `(buy, sell)`
signal lists.  Returns `([], [])` when either level list is empty; otherwise,
for each position `i` from `1` to `len(df) - 1`, emits `(date[i], close[i])`
as a buy signal when some support price is crossed and as a sell signal when
some resistance price is crossed. -/
def detect_signal_points (df : List PricePoint)
    (supports resistances : List (Nat × ℚ)) :
    List (Nat × ℚ) × List (Nat × ℚ) :=
  if supports.isEmpty || resistances.isEmpty then ([], [])
  else
    let idxs := List.range' 1 (df.length - 1)
    ((idxs.filter fun i =>
        crossesAny (closeAt df (i - 1)) (closeAt df i) supports).map
          fun i => (dateAt df i, closeAt df i),
     (idxs.filter fun i =>
        crossesAny (closeAt df (i - 1)) (closeAt df i) resistances).map
          fun i => (dateAt df i, closeAt df i))

/-- One element of a composed chart figure. -/
inductive Trace where
  | candlestick
  | volumeBar
  | overlay (name : String)
  | errorAnnotation (msg : String)
deriving DecidableEq, Repr

/-- The try/except skeleton of `create_chart`.  The effectful plotting and
indicator steps are passed as `Except`-valued oracles: `base` builds the
candlestick+volume figure, `indicators` is the inner `try` (its result is the
figure as mutated so far together with the exception message if one was
raised and caught), `layoutStep` is `update_layout`.  Any exception escaping
the outer `try` is converted to the single-annotation error figure. -/
def composeChart (base : Except String (List Trace))
    (indicators : List Trace → List Trace × Option String)
    (layoutStep : Except String Unit) : List Trace :=
  match (do
      let b ← base
      let withInd := (indicators b).1
      let _ ← layoutStep
      pure withInd : Except String (List Trace)) with
  | .ok f => f
  | .error e => [Trace.errorAnnotation ("Error creating chart: " ++ e)]

/-- The candlestick and volume traces added before the indicator block. -/
def baseTraces : List Trace := [Trace.candlestick, Trace.volumeBar]

/-- The overlay traces the indicator block appends when nothing fails. -/
def indicatorTraces (df : List PricePoint) : List Trace :=
  ((calculate_support_resistance df 10).1.map fun _ => Trace.overlay "support") ++
  ((calculate_support_resistance df 10).2.map fun _ => Trace.overlay "resistance") ++
  ((calculate_fibonacci_retracement df).map fun _ => Trace.overlay "fib") ++
  ((identify_elliot_waves df).1.map fun _ => Trace.overlay "wave") ++
  ((identify_abc_patterns df).map fun _ => Trace.overlay "abc") ++
  ((detect_signal_points df (calculate_support_resistance df 10).1
      (calculate_support_resistance df 10).2).1.map fun _ => Trace.overlay "buy") ++
  ((detect_signal_points df (calculate_support_resistance df 10).1
      (calculate_support_resistance df 10).2).2.map fun _ => Trace.overlay "sell")

/-- `create_chart` on a well-formed series: all steps succeed. -/
def create_chart (df : List PricePoint) : List Trace :=
  composeChart (Except.ok baseTraces)
    (fun b => (b ++ indicatorTraces df, none))
    (Except.ok ())

/-! ## Concrete series used as witnesses -/

/-- A price point with irrelevant `open`/`volume` fields zeroed. -/
def mkPt (d : Nat) (lo hi cl : ℚ) : PricePoint :=
  ⟨d, 0, hi, lo, cl, 0⟩

/-- Two-bar series whose close crosses from 1 to 5. -/
def dfSig : List PricePoint := [mkPt 0 1 3 1, mkPt 1 2 4 5]

/-- A totally flat 11-bar series: every scanned index is simultaneously a
local minimum on `low` and a local maximum on `high` for window 5. -/
def dfFlat : List PricePoint :=
  [mkPt 0 1 2 1, mkPt 1 1 2 1, mkPt 2 1 2 1, mkPt 3 1 2 1, mkPt 4 1 2 1,
   mkPt 5 1 2 1, mkPt 6 1 2 1, mkPt 7 1 2 1, mkPt 8 1 2 1, mkPt 9 1 2 1,
   mkPt 10 1 2 1]

/-- A 22-bar series with `high` peaks at indices 6 and 16 and a `low` valley
at index 11, producing one ABC pattern. -/
def dfABC : List PricePoint :=
  [mkPt 0 12 14 5, mkPt 1 11 15 5, mkPt 2 10 16 5, mkPt 3 9 17 5,
   mkPt 4 8 18 5, mkPt 5 7 19 5, mkPt 6 6 20 5, mkPt 7 5 19 5, mkPt 8 4 18 5,
   mkPt 9 3 17 5, mkPt 10 2 16 5, mkPt 11 1 15 5, mkPt 12 2 16 5,
   mkPt 13 3 17 5, mkPt 14 4 18 5, mkPt 15 5 19 5, mkPt 16 6 20 5,
   mkPt 17 7 19 5, mkPt 18 8 18 5, mkPt 19 9 17 5, mkPt 20 10 16 5,
   mkPt 21 11 15 5]

/-! ## Helper lemmas -/

theorem mem_scanIdx (df : List PricePoint) (w i : Nat) :
    i ∈ scanIdx df w ↔ w ≤ i ∧ i < df.length - w := by
  simp only [scanIdx, List.mem_range'_1]
  omega

theorem isLocalMin_iff (df : List PricePoint) (w i : Nat) :
    isLocalMin df w i = true ↔
      ∀ j, 1 ≤ j → j ≤ w →
        lowAt df i ≤ lowAt df (i - j) ∧ lowAt df i ≤ lowAt df (i + j) := by
  simp only [isLocalMin, Bool.and_eq_true, List.all_eq_true, decide_eq_true_eq,
    List.mem_range'_1]
  constructor
  · rintro ⟨h1, h2⟩ j hj1 hj2
    exact ⟨h1 j ⟨hj1, by omega⟩, h2 j ⟨hj1, by omega⟩⟩
  · intro h
    exact ⟨fun j hj => (h j hj.1 (by omega)).1, fun j hj => (h j hj.1 (by omega)).2⟩

theorem isLocalMax_iff (df : List PricePoint) (w i : Nat) :
    isLocalMax df w i = true ↔
      ∀ j, 1 ≤ j → j ≤ w →
        highAt df (i - j) ≤ highAt df i ∧ highAt df (i + j) ≤ highAt df i := by
  simp only [isLocalMax, Bool.and_eq_true, List.all_eq_true, decide_eq_true_eq,
    List.mem_range'_1]
  constructor
  · rintro ⟨h1, h2⟩ j hj1 hj2
    exact ⟨h1 j ⟨hj1, by omega⟩, h2 j ⟨hj1, by omega⟩⟩
  · intro h
    exact ⟨fun j hj => (h j hj.1 (by omega)).1, fun j hj => (h j hj.1 (by omega)).2⟩

/-! ## C2 — the extremum scanner contract -/

/-- C2: for every series, window `w` and index `i` in `[w, n-w)`, position `i`
is classified as a support (local minimum) iff `low[i]` is `≤` every low in
the `w` positions before and after it, and as a resistance (local maximum)
iff `high[i]` is `≥` every high in the `w` positions before and after it;
for `n ≤ 2w` the result is empty. -/
theorem calculate_support_resistance_spec (df : List PricePoint) (w i : Nat) :
    (i ∈ supportIdx df w ↔
      w ≤ i ∧ i < df.length - w ∧
        ∀ j, 1 ≤ j → j ≤ w →
          lowAt df i ≤ lowAt df (i - j) ∧ lowAt df i ≤ lowAt df (i + j)) ∧
    (i ∈ resistanceIdx df w ↔
      w ≤ i ∧ i < df.length - w ∧
        ∀ j, 1 ≤ j → j ≤ w →
          highAt df (i - j) ≤ highAt df i ∧ highAt df (i + j) ≤ highAt df i) ∧
    (df.length ≤ 2 * w → calculate_support_resistance df w = ([], [])) := by
  refine ⟨?_, ?_, ?_⟩
  · rw [supportIdx, List.mem_filter, mem_scanIdx, isLocalMin_iff]
    tauto
  · rw [resistanceIdx, List.mem_filter, mem_scanIdx, isLocalMax_iff]
    tauto
  · intro h
    have hz : df.length - w - w = 0 := by omega
    simp [calculate_support_resistance, supportIdx, resistanceIdx, scanIdx, hz]

/-- Witness for C2: a 4-bar series with window 2 (`n ≤ 2w`) yields no levels. -/
theorem calculate_support_resistance_spec_witness :
    calculate_support_resistance [mkPt 0 1 2 1, mkPt 1 1 2 1,
      mkPt 2 1 2 1, mkPt 3 1 2 1] 2 = ([], []) :=
  (calculate_support_resistance_spec _ 2 0).2.2 (by decide)

/-! ## C3, C4, C9 — the Fibonacci calculator -/

/-- C3: for every non-empty series the Fibonacci calculator returns exactly
the 7 fixed ratio keys, the price at ratio 0.0 is `max(high)`, the price at
ratio 1.0 is `min(low)`, and every level's price is
`highest - r * (highest - lowest)`. -/
theorem calculate_fibonacci_retracement_levels (df : List PricePoint)
    (h : df ≠ []) :
    (calculate_fibonacci_retracement df).map Prod.fst =
      [0, 0.236, 0.382, 0.5, 0.618, 0.786, 1] ∧
    ((0 : ℚ), maxHigh df) ∈ calculate_fibonacci_retracement df ∧
    ((1 : ℚ), minLow df) ∈ calculate_fibonacci_retracement df ∧
    ∀ rp ∈ calculate_fibonacci_retracement df,
      rp.2 = maxHigh df - rp.1 * (maxHigh df - minLow df) := by
  match df with
  | [] => exact absurd rfl h
  | p :: ps =>
    refine ⟨by simp [calculate_fibonacci_retracement], ?_, ?_, ?_⟩
    · simp [calculate_fibonacci_retracement]
    · simp [calculate_fibonacci_retracement]
    · intro rp hrp
      simp only [calculate_fibonacci_retracement, List.mem_cons,
        List.not_mem_nil, or_false] at hrp
      rcases hrp with h1|h1|h1|h1|h1|h1|h1 <;> subst h1 <;> ring

/-- Witness for C3 at a concrete two-bar series. -/
theorem calculate_fibonacci_retracement_levels_witness :
    (calculate_fibonacci_retracement dfSig).map Prod.fst =
      [0, 0.236, 0.382, 0.5, 0.618, 0.786, 1] ∧
    ((0 : ℚ), maxHigh dfSig) ∈ calculate_fibonacci_retracement dfSig ∧
    ((1 : ℚ), minLow dfSig) ∈ calculate_fibonacci_retracement dfSig ∧
    ∀ rp ∈ calculate_fibonacci_retracement dfSig,
      rp.2 = maxHigh dfSig - rp.1 * (maxHigh dfSig - minLow dfSig) :=
  calculate_fibonacci_retracement_levels dfSig (by decide)

/-- C4: whenever `min(low) ≤ max(high)`, the Fibonacci level prices are
non-increasing as the ratio key increases through the 7 ratios. -/
theorem calculate_fibonacci_retracement_monotone (df : List PricePoint)
    (h : df ≠ []) (hle : minLow df ≤ maxHigh df) :
    List.Chain' (fun a b : ℚ × ℚ => a.1 ≤ b.1 ∧ b.2 ≤ a.2)
      (calculate_fibonacci_retracement df) := by
  match df with
  | [] => exact absurd rfl h
  | p :: ps =>
    have hd : 0 ≤ maxHigh (p :: ps) - minLow (p :: ps) := by linarith
    simp only [calculate_fibonacci_retracement, List.chain'_cons,
      List.chain'_singleton, and_true]
    refine ⟨⟨by norm_num, by linarith⟩, ⟨by norm_num, by linarith⟩,
      ⟨by norm_num, by linarith⟩, ⟨by norm_num, by linarith⟩,
      ⟨by norm_num, by linarith⟩, ⟨by norm_num, by linarith⟩⟩

/-- Witness for C4 at a concrete two-bar series. -/
theorem calculate_fibonacci_retracement_monotone_witness :
    List.Chain' (fun a b : ℚ × ℚ => a.1 ≤ b.1 ∧ b.2 ≤ a.2)
      (calculate_fibonacci_retracement dfSig) :=
  calculate_fibonacci_retracement_monotone dfSig (by decide) (by decide)

/-- C9: the Fibonacci calculator yields an empty mapping exactly on the empty
series, and a full 7-level mapping on every non-empty series. -/
theorem calculate_fibonacci_retracement_empty_iff (df : List PricePoint) :
    (calculate_fibonacci_retracement df = [] ↔ df = []) ∧
    (df ≠ [] → (calculate_fibonacci_retracement df).length = 7) := by
  match df with
  | [] => simp [calculate_fibonacci_retracement]
  | p :: ps => simp [calculate_fibonacci_retracement]

/-- Witness for C9 at a concrete two-bar series. -/
theorem calculate_fibonacci_retracement_empty_iff_witness :
    (calculate_fibonacci_retracement dfSig).length = 7 :=
  (calculate_fibonacci_retracement_empty_iff dfSig).2 (by decide)

/-! ## The signal detector -/

theorem crossesAny_iff (prev curr : ℚ) (L : List (Nat × ℚ)) :
    crossesAny prev curr L = true ↔ ∃ l ∈ L, prev < l.2 ∧ l.2 ≤ curr := by
  induction L with
  | nil => simp [crossesAny]
  | cons a t ih =>
    by_cases hc : prev < a.2 ∧ a.2 ≤ curr
    · simp [crossesAny, hc]
    · simp only [crossesAny, if_neg hc, ih, List.mem_cons]
      constructor
      · rintro ⟨l, hl, h⟩
        exact ⟨l, Or.inr hl, h⟩
      · rintro ⟨l, hl | hl, h⟩
        · exact absurd (hl ▸ h) hc
        · exact ⟨l, hl, h⟩

/-- Membership in one of the signal lists, as produced for a non-empty pair
of level lists: the event of position `i` is present iff some level in `L` is
crossed between positions `i-1` and `i`. -/
theorem mem_signal_list (df : List PricePoint) (L : List (Nat × ℚ)) (i : Nat)
    (h1 : 1 ≤ i) (h2 : i < df.length)
    (hinj : ∀ j, j < df.length → ∀ k, k < df.length →
      dateAt df j = dateAt df k → j = k) :
    ((dateAt df i, closeAt df i) ∈
      ((List.range' 1 (df.length - 1)).filter fun j =>
          crossesAny (closeAt df (j - 1)) (closeAt df j) L).map
        (fun j => (dateAt df j, closeAt df j))) ↔
    ∃ l ∈ L, closeAt df (i - 1) < l.2 ∧ l.2 ≤ closeAt df i := by
  rw [List.mem_map]
  constructor
  · rintro ⟨j, hj, hev⟩
    rw [List.mem_filter, List.mem_range'_1] at hj
    have hj2 : j < df.length := by omega
    have hji : j = i := hinj j hj2 i h2 (congrArg Prod.fst hev)
    subst hji
    exact (crossesAny_iff _ _ L).mp hj.2
  · intro hex
    refine ⟨i, ?_, rfl⟩
    rw [List.mem_filter, List.mem_range'_1]
    exact ⟨⟨h1, by omega⟩, (crossesAny_iff _ _ L).mpr hex⟩

/-- If neither list is empty, `detect_signal_points` takes its main branch. -/
theorem detect_signal_points_ne (df : List PricePoint)
    (S R : List (Nat × ℚ)) (hS : S ≠ []) (hR : R ≠ []) :
    detect_signal_points df S R =
      (((List.range' 1 (df.length - 1)).filter fun i =>
          crossesAny (closeAt df (i - 1)) (closeAt df i) S).map
            (fun i => (dateAt df i, closeAt df i)),
       ((List.range' 1 (df.length - 1)).filter fun i =>
          crossesAny (closeAt df (i - 1)) (closeAt df i) R).map
            (fun i => (dateAt df i, closeAt df i))) := by
  obtain ⟨s0, S', rfl⟩ := List.exists_cons_of_ne_nil hS
  obtain ⟨r0, R', rfl⟩ := List.exists_cons_of_ne_nil hR
  rfl

/-- C1 (amended): provided both level lists are non-empty and timestamps are
injective in position, a buy event with position `i`'s timestamp and close
exists iff some support level price is crossed from strictly below at `i-1`
to at-or-above at `i`; symmetrically for sell events over resistances. -/
theorem detect_signal_points_crossing_iff (df : List PricePoint)
    (S R : List (Nat × ℚ)) (i : Nat) (hS : S ≠ []) (hR : R ≠ [])
    (h1 : 1 ≤ i) (h2 : i < df.length)
    (hinj : ∀ j, j < df.length → ∀ k, k < df.length →
      dateAt df j = dateAt df k → j = k) :
    ((dateAt df i, closeAt df i) ∈ (detect_signal_points df S R).1 ↔
      ∃ s ∈ S, closeAt df (i - 1) < s.2 ∧ s.2 ≤ closeAt df i) ∧
    ((dateAt df i, closeAt df i) ∈ (detect_signal_points df S R).2 ↔
      ∃ r ∈ R, closeAt df (i - 1) < r.2 ∧ r.2 ≤ closeAt df i) := by
  rw [detect_signal_points_ne df S R hS hR]
  exact ⟨mem_signal_list df S i h1 h2 hinj, mem_signal_list df R i h1 h2 hinj⟩

/-- Witness for C1 (amended): with closes `1 → 5`, support at 3 and
resistance at 4, position 1 emits both a buy and a sell event. -/
theorem detect_signal_points_crossing_iff_witness :
    (dateAt dfSig 1, closeAt dfSig 1) ∈
      (detect_signal_points dfSig [(0, 3)] [(0, 4)]).1 ∧
    (dateAt dfSig 1, closeAt dfSig 1) ∈
      (detect_signal_points dfSig [(0, 3)] [(0, 4)]).2 :=
  ⟨(detect_signal_points_crossing_iff dfSig [(0, 3)] [(0, 4)] 1
      (by decide) (by decide) (by decide) (by decide) (by decide)).1.mpr
    ⟨(0, 3), by decide, by decide, by decide⟩,
   (detect_signal_points_crossing_iff dfSig [(0, 3)] [(0, 4)] 1
      (by decide) (by decide) (by decide) (by decide) (by decide)).2.mpr
    ⟨(0, 4), by decide, by decide, by decide⟩⟩

/-- Counterexample to C1 as stated: it quantifies over *every* pair of level
lists, but with a non-empty support list and an *empty* resistance list the
detector returns no buy events even though a support price is crossed
(`1 < 3 ≤ 5` between positions 0 and 1). -/
theorem detect_signal_points_claim_counterexample :
    (detect_signal_points dfSig [(0, 3)] []).1 = [] ∧
    (∃ s ∈ [((0 : Nat), (3 : ℚ))],
      closeAt dfSig 0 < s.2 ∧ s.2 ≤ closeAt dfSig 1) := by
  refine ⟨rfl, ⟨(0, 3), ?_, ?_, ?_⟩⟩ <;> decide

/-- C7: if either level list is empty, the signal detector emits nothing. -/
theorem detect_signal_points_empty_levels (df : List PricePoint)
    (S R : List (Nat × ℚ)) (h : S = [] ∨ R = []) :
    detect_signal_points df S R = ([], []) := by
  rw [detect_signal_points]
  rcases h with h | h <;> subst h <;> simp

/-- Witness for C7: a non-empty support list with an empty resistance list
yields no signals even though position 1 crosses the support price. -/
theorem detect_signal_points_empty_levels_witness :
    detect_signal_points dfSig [(0, 3)] [] = ([], []) :=
  detect_signal_points_empty_levels dfSig [(0, 3)] [] (Or.inr rfl)

theorem countP_le_one_of_unique {α : Type} (p : α → Bool) :
    ∀ l : List α, l.Nodup →
      (∀ a ∈ l, ∀ b ∈ l, p a = true → p b = true → a = b) →
      l.countP p ≤ 1 := by
  intro l
  induction l with
  | nil => simp
  | cons a t ih =>
    intro hnd hu
    rw [List.countP_cons]
    by_cases hpa : p a = true
    · have ht : t.countP p = 0 := by
        rw [List.countP_eq_zero]
        intro b hb hpb
        have hba : b = a :=
          hu b (List.mem_cons_of_mem _ hb) a (List.mem_cons_self _ _) hpb hpa
        exact absurd (hba ▸ hb) (List.nodup_cons.mp hnd).1
      simp [hpa, ht]
    · have ht : t.countP p ≤ 1 :=
        ih (List.nodup_cons.mp hnd).2
          (fun x hx y hy => hu x (List.mem_cons_of_mem _ hx)
            y (List.mem_cons_of_mem _ hy))
      simp [hpa]
      omega

/-- At most one event with a given position's timestamp in one signal list. -/
theorem countP_signal_le_one (df : List PricePoint) (L : List (Nat × ℚ))
    (i : Nat)
    (hinj : ∀ j, j < df.length → ∀ k, k < df.length →
      dateAt df j = dateAt df k → j = k) :
    ((((List.range' 1 (df.length - 1)).filter fun j =>
        crossesAny (closeAt df (j - 1)) (closeAt df j) L).map
          (fun j => (dateAt df j, closeAt df j))).countP
       fun e => e.1 == dateAt df i) ≤ 1 := by
  rw [List.countP_map]
  refine le_trans (List.Sublist.countP_le _ (List.filter_sublist _)) ?_
  refine countP_le_one_of_unique _ _ (List.nodup_range' _ _) ?_
  intro a ha b hb hpa hpb
  rw [List.mem_range'_1] at ha hb
  simp only [Function.comp_apply, beq_iff_eq] at hpa hpb
  exact hinj a (by omega) b (by omega) (hpa.trans hpb.symm)

/-- C6: for every position `i`, the signal detector emits at most one buy
event and at most one sell event carrying position `i`'s timestamp, even when
several levels are crossed simultaneously; and the level scan stops at the
first matching level in list order. -/
theorem detect_signal_points_at_most_one_per_position (df : List PricePoint)
    (S R : List (Nat × ℚ)) (i : Nat)
    (hinj : ∀ j, j < df.length → ∀ k, k < df.length →
      dateAt df j = dateAt df k → j = k) :
    ((detect_signal_points df S R).1.countP
        fun e => e.1 == dateAt df i) ≤ 1 ∧
    ((detect_signal_points df S R).2.countP
        fun e => e.1 == dateAt df i) ≤ 1 ∧
    (∀ (l : Nat × ℚ) (L' : List (Nat × ℚ)) (prev curr : ℚ),
      prev < l.2 → l.2 ≤ curr → crossesAny prev curr (l :: L') = true) := by
  refine ⟨?_, ?_, ?_⟩
  · by_cases hS : S = []
    · simp [detect_signal_points_empty_levels df S R (Or.inl hS)]
    · by_cases hR : R = []
      · simp [detect_signal_points_empty_levels df S R (Or.inr hR)]
      · rw [detect_signal_points_ne df S R hS hR]
        exact countP_signal_le_one df S i hinj
  · by_cases hS : S = []
    · simp [detect_signal_points_empty_levels df S R (Or.inl hS)]
    · by_cases hR : R = []
      · simp [detect_signal_points_empty_levels df S R (Or.inr hR)]
      · rw [detect_signal_points_ne df S R hS hR]
        exact countP_signal_le_one df R i hinj
  · intro l L' prev curr hlt hle
    simp [crossesAny, hlt, hle]

/-- Witness for C6: both supports 3 and 4 are crossed at position 1, yet only
one buy event is emitted. -/
theorem detect_signal_points_at_most_one_per_position_witness :
    ((detect_signal_points dfSig [(0, 3), (0, 4)] [(0, 4)]).1.countP
        fun e => e.1 == dateAt dfSig 1) ≤ 1 ∧
    ((detect_signal_points dfSig [(0, 3), (0, 4)] [(0, 4)]).2.countP
        fun e => e.1 == dateAt dfSig 1) ≤ 1 ∧
    (∀ (l : Nat × ℚ) (L' : List (Nat × ℚ)) (prev curr : ℚ),
      prev < l.2 → l.2 ≤ curr → crossesAny prev curr (l :: L') = true) :=
  detect_signal_points_at_most_one_per_position dfSig
    [(0, 3), (0, 4)] [(0, 4)] 1 (by decide)

/-! ## C5, C10 — swing points and ABC patterns -/

/-- C5: every emitted ABC pattern is the triple of three *consecutive*
entries of the merged swing-point sequence whose kinds are exactly
`(max, min, max)`. -/
theorem identify_abc_patterns_shape (df : List PricePoint)
    (p : List (Nat × ℚ)) (hp : p ∈ identify_abc_patterns df) :
    ∃ i d1 p1 d2 p2 d3 p3,
      (extremaOf df)[i]? = some (d1, p1, ExtKind.max) ∧
      (extremaOf df)[i + 1]? = some (d2, p2, ExtKind.min) ∧
      (extremaOf df)[i + 2]? = some (d3, p3, ExtKind.max) ∧
      p = [(d1, p1), (d2, p2), (d3, p3)] := by
  simp only [identify_abc_patterns] at hp
  rw [List.mem_filterMap] at hp
  obtain ⟨i, hi, hf⟩ := hp
  refine ⟨i, ?_⟩
  split at hf
  · rename_i d1 p1 d2 p2 d3 p3 h1 h2 h3
    cases hf
    exact ⟨d1, p1, d2, p2, d3, p3, h1, h2, h3, rfl⟩
  · cases hf

set_option maxRecDepth 40000 in
/-- Witness for C5: the single pattern emitted on the 22-bar series. -/
theorem identify_abc_patterns_shape_witness :
    ∃ i d1 p1 d2 p2 d3 p3,
      (extremaOf dfABC)[i]? = some (d1, p1, ExtKind.max) ∧
      (extremaOf dfABC)[i + 1]? = some (d2, p2, ExtKind.min) ∧
      (extremaOf dfABC)[i + 2]? = some (d3, p3, ExtKind.max) ∧
      [((6 : Nat), (20 : ℚ)), (11, 1), (16, 20)] =
        [(d1, p1), (d2, p2), (d3, p3)] :=
  identify_abc_patterns_shape dfABC
    [((6 : Nat), (20 : ℚ)), (11, 1), (16, 20)] (by decide)

/-- C10: when index `i` in scan range is simultaneously a local minimum on
`low` and a local maximum on `high`, the merged sequence places its
`min`-tagged entry immediately before its `max`-tagged entry, and the
Elliott-wave type list shows the same adjacent `min`/`max` order. -/
theorem extremaOf_min_before_max (df : List PricePoint) (i : Nat)
    (hi : i ∈ scanIdx df 5)
    (hmin : isLocalMin df 5 i = true) (hmax : isLocalMax df 5 i = true) :
    ∃ k, (extremaOf df)[k]? = some (dateAt df i, lowAt df i, ExtKind.min) ∧
      (extremaOf df)[k + 1]? = some (dateAt df i, highAt df i, ExtKind.max) ∧
      (identify_elliot_waves df).2[k]? = some ExtKind.min ∧
      (identify_elliot_waves df).2[k + 1]? = some ExtKind.max := by
  obtain ⟨s, t, hst⟩ := List.append_of_mem hi
  have hsplit : extremaOf df =
      s.flatMap (extremaEntries df) ++
        (extremaEntries df i ++ t.flatMap (extremaEntries df)) := by
    rw [extremaOf, hst, List.flatMap_append, List.flatMap_cons]
  have hent : extremaEntries df i =
      [(dateAt df i, lowAt df i, ExtKind.min),
       (dateAt df i, highAt df i, ExtKind.max)] := by
    simp [extremaEntries, hmin, hmax]
  refine ⟨(s.flatMap (extremaEntries df)).length, ?_, ?_, ?_, ?_⟩
  · rw [hsplit, List.getElem?_append_right le_rfl]
    simp [hent]
  · rw [hsplit, List.getElem?_append_right (by omega)]
    have hk : (s.flatMap (extremaEntries df)).length + 1 -
        (s.flatMap (extremaEntries df)).length = 1 := by omega
    rw [hk, hent]
    simp
  · rw [identify_elliot_waves]
    simp only [List.getElem?_map]
    rw [hsplit, List.getElem?_append_right le_rfl]
    simp [hent]
  · rw [identify_elliot_waves]
    simp only [List.getElem?_map]
    rw [hsplit, List.getElem?_append_right (by omega)]
    have hk : (s.flatMap (extremaEntries df)).length + 1 -
        (s.flatMap (extremaEntries df)).length = 1 := by omega
    rw [hk, hent]
    simp

set_option maxRecDepth 40000 in
/-- Witness for C10: on the flat 11-bar series, index 5 is both a local
minimum and a local maximum, and its entries are adjacent in min-max order. -/
theorem extremaOf_min_before_max_witness :
    ∃ k, (extremaOf dfFlat)[k]? =
        some (dateAt dfFlat 5, lowAt dfFlat 5, ExtKind.min) ∧
      (extremaOf dfFlat)[k + 1]? =
        some (dateAt dfFlat 5, highAt dfFlat 5, ExtKind.max) ∧
      (identify_elliot_waves dfFlat).2[k]? = some ExtKind.min ∧
      (identify_elliot_waves dfFlat).2[k + 1]? = some ExtKind.max :=
  extremaOf_min_before_max dfFlat 5 (by decide) (by decide) (by decide)

/-! ## C8 — chart-composer error isolation -/

/-- C8: the composer never propagates a failure.  A base-chart failure or a
layout failure is converted into the single-element error-placeholder figure
carrying the failure description; a failure inside the indicator block is
caught and the figure built so far (the base candlestick/volume chart plus
whatever overlays were added before the failure) is still returned. -/
theorem composeChart_error_isolation
    (base : Except String (List Trace))
    (indicators : List Trace → List Trace × Option String)
    (layoutStep : Except String Unit) :
    (∀ e, base = Except.error e →
      composeChart base indicators layoutStep =
        [Trace.errorAnnotation ("Error creating chart: " ++ e)]) ∧
    (∀ b, base = Except.ok b → layoutStep = Except.ok () →
      composeChart base indicators layoutStep = (indicators b).1) ∧
    (∀ b e, base = Except.ok b → layoutStep = Except.error e →
      composeChart base indicators layoutStep =
        [Trace.errorAnnotation ("Error creating chart: " ++ e)]) ∧
    (∀ b extra, base = Except.ok b → layoutStep = Except.ok () →
      (indicators b).1 = b ++ extra →
      composeChart base indicators layoutStep = b ++ extra) := by
  refine ⟨?_, ?_, ?_, ?_⟩
  · intro e he
    subst he
    rfl
  · intro b hb hl
    subst hb
    subst hl
    rfl
  · intro b e hb hl
    subst hb
    subst hl
    rfl
  · intro b extra hb hl heq
    subst hb
    subst hl
    rw [show composeChart (Except.ok b) indicators (Except.ok ()) =
      (indicators b).1 from rfl, heq]

/-- Witness for C8: a failing base step yields exactly the one-element
error placeholder. -/
theorem composeChart_error_isolation_witness :
    composeChart (Except.error "bad series") (fun b => (b, none))
        (Except.ok ()) =
      [Trace.errorAnnotation ("Error creating chart: " ++ "bad series")] :=
  (composeChart_error_isolation (Except.error "bad series")
    (fun b => (b, none)) (Except.ok ())).1 "bad series" rfl

end Marktec
